import Mathlib

/-!
Shallow embedding of the panel-method aerodynamics core of the
physics-formulas-library repository (src/physics-formulas-library/aerodynamics.ts,
src/physics-formulas-library/geometry.ts, and the streamline integrators embedded
in the two scene-update modules), together with theorems settling the frozen
claims about it.  JavaScript numbers are modelled as real numbers; Vector2 as a
pair of reals; array indexing `a[i]!` as `List.getD i default`.
-/

noncomputable section

/-- Two-dimensional vector, modelling THREE.Vector2 (fields x, y). -/
structure V2 where
  x : ℝ
  y : ℝ

instance : Inhabited V2 := ⟨⟨0, 0⟩⟩

/-- Dot product of two 2D vectors (THREE.Vector2.dot). -/
def dot (a b : V2) : ℝ := a.x * b.x + a.y * b.y

/-- Math.hypot for two arguments. -/
def hypot (dx dy : ℝ) : ℝ := Real.sqrt (dx ^ 2 + dy ^ 2)

/-- Euclidean distance between two points (THREE.Vector2.distanceTo). -/
def distV2 (a b : V2) : ℝ := hypot (b.x - a.x) (b.y - a.y)

/-- Length (norm) of a 2D vector (THREE.Vector2.length). -/
def v2len (v : V2) : ℝ := Real.sqrt (v.x ^ 2 + v.y ^ 2)

/-- Math.atan2 y x, modelled as the argument of the complex number x + y i.
Both have range (-π, π], agree on all quadrants and on the axes, and both
return 0 at (0, 0). -/
def atan2 (y x : ℝ) : ℝ := Complex.arg ⟨x, y⟩

/-- A straight boundary panel (aerodynamics.ts type Panel).  The TypeScript
field `end` is called `pend` here because `end` is a Lean keyword. -/
structure Panel where
  start : V2
  pend : V2
  control : V2
  tangent : V2
  normal : V2
  length : ℝ

instance : Inhabited Panel := ⟨⟨default, default, default, default, default, 0⟩⟩

/-- Shoelace signed polygon area (aerodynamics.ts polygonArea): half the sum of
cross terms over consecutive point pairs with cyclic wrap-around. -/
def polygonArea (points : List V2) : ℝ :=
  0.5 * ((List.range points.length).map (fun i =>
    let a := points.getD i default
    let b := points.getD ((i + 1) % points.length) default
    a.x * b.y - b.x * a.y)).sum

/-- Loop closure step of buildPanels (aerodynamics.ts lines 49-54): if the first
and last points are at distance ≥ 1e-6 the first point is appended, otherwise
the contour is taken as already closed. -/
def autoClose (contour : List V2) : List V2 :=
  let first := contour.getD 0 default
  let last := contour.getD (contour.length - 1) default
  if distV2 first last < 1e-6 then contour else contour ++ [first]

/-- Orientation step of buildPanels (line 55): reverse the closed point list
exactly when its shoelace area is positive (counter-clockwise). -/
def orientClockwise (closed : List V2) : List V2 :=
  if 0 < polygonArea closed then closed.reverse else closed

/-- Panel construction for one consecutive point pair (buildPanels loop body,
lines 57-75): skip zero-length segments, otherwise record segment length, unit
tangent, normal (tangent.y, -tangent.x) and midpoint control point. -/
def mkPanel (s e : V2) : Option Panel :=
  let dx := e.x - s.x
  let dy := e.y - s.y
  let len := hypot dx dy
  if len = 0 then none
  else some
    { start := s
      pend := e
      control := ⟨(s.x + e.x) * 0.5, (s.y + e.y) * 0.5⟩
      tangent := ⟨dx / len, dy / len⟩
      normal := ⟨dy / len, -(dx / len)⟩
      length := len }

/-- Panels from an oriented point list: one candidate panel per consecutive
pair, degenerate pairs dropped. -/
def panelsFromPoints (points : List V2) : List Panel :=
  (List.range (points.length - 1)).filterMap (fun i =>
    mkPanel (points.getD i default) (points.getD (i + 1) default))

/-- aerodynamics.ts buildPanels: guard degenerate contours, close the loop,
normalize orientation to clockwise, then emit panels pairwise. -/
def buildPanels (contour : List V2) : List Panel :=
  if contour.length < 3 then []
  else panelsFromPoints (orientClockwise (autoClose contour))

/-- Panel length as recomputed inside panelInfluence (aerodynamics.ts line 82). -/
def panelLen (panel : Panel) : ℝ :=
  hypot (panel.pend.x - panel.start.x) (panel.pend.y - panel.start.y)

/-- Cosine of the panel orientation angle (line 83). -/
def panelCosT (panel : Panel) : ℝ := (panel.pend.x - panel.start.x) / panelLen panel

/-- Sine of the panel orientation angle (line 84). -/
def panelSinT (panel : Panel) : ℝ := (panel.pend.y - panel.start.y) / panelLen panel

/-- Local x coordinate of the evaluation point in the panel frame (line 87). -/
def localX (panel : Panel) (point : V2) : ℝ :=
  (point.x - panel.start.x) * panelCosT panel + (point.y - panel.start.y) * panelSinT panel

/-- Local y coordinate of the evaluation point in the panel frame (line 88). -/
def localY (panel : Panel) (point : V2) : ℝ :=
  -(point.x - panel.start.x) * panelSinT panel + (point.y - panel.start.y) * panelCosT panel

/-- Squared-distance floor used before the logarithm (lines 92-93):
Math.max(r, 1e-12). -/
def safeSq (r : ℝ) : ℝ := max r 1e-12

/-- Log term of the influence formulas (line 94), with both squared distances
floored at 1e-12. -/
def logTermOf (panel : Panel) (point : V2) : ℝ :=
  let xL := localX panel point
  let yL := localY panel point
  let x2 := xL - panelLen panel
  0.5 * Real.log (safeSq (xL ^ 2 + yL ^ 2) / safeSq (x2 ^ 2 + yL ^ 2))

/-- Swept-angle term of the influence formulas (lines 95-97): θ2 - θ1. -/
def atanTermOf (panel : Panel) (point : V2) : ℝ :=
  let xL := localX panel point
  let yL := localY panel point
  atan2 yL (xL - panelLen panel) - atan2 yL xL

/-- Pair of unit-strength induced velocities returned by panelInfluence. -/
structure Influence where
  sourceVelocity : V2
  vortexVelocity : V2

/-- aerodynamics.ts panelInfluence (lines 79-115): local-frame source components
(logTerm, atanTerm)/2π and vortex components (atanTerm, -logTerm)/2π, both
rotated back to global coordinates by the panel orientation. -/
def panelInfluence (panel : Panel) (point : V2) : Influence :=
  let cosT := panelCosT panel
  let sinT := panelSinT panel
  let coeff := 1 / (2 * Real.pi)
  let sourceTangential := coeff * logTermOf panel point
  let sourceNormal := coeff * atanTermOf panel point
  let vortexTangential := coeff * atanTermOf panel point
  let vortexNormal := -(coeff * logTermOf panel point)
  { sourceVelocity := ⟨sourceTangential * cosT - sourceNormal * sinT,
                       sourceTangential * sinT + sourceNormal * cosT⟩
    vortexVelocity := ⟨vortexTangential * cosT - vortexNormal * sinT,
                       vortexTangential * sinT + vortexNormal * cosT⟩ }

/-- Defensive denominator used by the Gaussian solver (aerodynamics.ts lines 140
and 156): the JavaScript idiom `v || 1e-12`, replacing a zero pivot by 1e-12. -/
def safeDenom (v : ℝ) : ℝ := if v = 0 then 1e-12 else v

/-- Matrix entry access M[i][j] with out-of-range default 0. -/
def entryM (M : List (List ℝ)) (i j : ℕ) : ℝ := (M.getD i []).getD j 0

/-- Partial-pivot row search for column k (solveLinearSystem lines 122-131):
scan rows k+1..n-1, keeping the row with the largest absolute column-k entry,
starting from row k itself. -/
def pivotSearch (M : List (List ℝ)) (k n : ℕ) : ℕ :=
  ((List.range n).drop (k + 1)).foldl
    (fun best i => if |entryM M best k| < |entryM M i k| then i else best) k

/-- Swap two entries of a list (the row/rhs swap of lines 132-139). -/
def swapIdx {α : Type} [Inhabited α] (l : List α) (i j : ℕ) : List α :=
  (l.set i (l.getD j default)).set j (l.getD i default)

/-- Row update of the elimination inner loop (lines 143-145): subtract
factor times row k from row i, for columns j ≥ k only. -/
def elimRow (rowK rowI : List ℝ) (factor : ℝ) (k : ℕ) : List ℝ :=
  (List.range rowI.length).map (fun j =>
    if k ≤ j then rowI.getD j 0 - factor * rowK.getD j 0 else rowI.getD j 0)

/-- One forward-elimination step for column k (solveLinearSystem lines 122-148):
partial pivot selection, conditional row swap, then elimination of the
entries below the (floored) pivot. -/
def elimStep (state : List (List ℝ) × List ℝ) (k : ℕ) : List (List ℝ) × List ℝ :=
  let n := state.2.length
  let maxRow := pivotSearch state.1 k n
  let M := if maxRow ≠ k then swapIdx state.1 k maxRow else state.1
  let x := if maxRow ≠ k then swapIdx state.2 k maxRow else state.2
  let pivot := safeDenom (entryM M k k)
  ((List.range n).drop (k + 1)).foldl
    (fun s i =>
      let factor := entryM s.1 i k / pivot
      (s.1.set i (elimRow (s.1.getD k []) (s.1.getD i []) factor k),
       s.2.set i (s.2.getD i 0 - factor * s.2.getD k 0)))
    (M, x)

/-- Back substitution (solveLinearSystem lines 150-157): fill the solution from
the last row upward, dividing by the floored diagonal entry. -/
def backSub (M : List (List ℝ)) (x : List ℝ) : List ℝ :=
  (List.range x.length).reverse.foldl
    (fun sol i =>
      let sum := x.getD i 0 -
        (((List.range x.length).drop (i + 1)).map
          (fun j => entryM M i j * sol.getD j 0)).sum
      sol.set i (sum / safeDenom (entryM M i i)))
    (List.replicate x.length 0)

/-- aerodynamics.ts solveLinearSystem (lines 117-159): Gaussian elimination with
partial pivoting and 1e-12 pivot floors, then back substitution. -/
def solveLinearSystem (A : List (List ℝ)) (b : List ℝ) : List ℝ :=
  let forward := (List.range b.length).foldl elimStep (A, b)
  backSub forward.1 forward.2

/-- Strict comparison against a running maximum that starts at -Infinity:
`none` models the -Infinity initial value, which every finite x exceeds. -/
def optLt : Option ℝ → ℝ → Prop
  | none, _ => True
  | some v, x => v < x

instance (m : Option ℝ) (x : ℝ) : Decidable (optLt m x) :=
  match m with
  | none => isTrue trivial
  | some v => inferInstanceAs (Decidable (v < x))

/-- One update of the trailing-edge scan (findTrailingEdgePanels forEach body,
aerodynamics.ts lines 166-176).  State: upper index, lower index, best upper x,
best lower x. -/
def teStep (state : (ℕ × ℕ) × Option ℝ × Option ℝ) (ip : ℕ × Panel) :
    (ℕ × ℕ) × Option ℝ × Option ℝ :=
  let x := ip.2.control.x
  let upperHit := 0 ≤ ip.2.control.y ∧ optLt state.2.1 x
  let lowerHit := ip.2.control.y ≤ 0 ∧ optLt state.2.2 x
  ((if upperHit then ip.1 else state.1.1, if lowerHit then ip.1 else state.1.2),
   (if upperHit then some x else state.2.1, if lowerHit then some x else state.2.2))

/-- aerodynamics.ts findTrailingEdgePanels (lines 161-178): indices of the
panel of maximum control-point x among those with control-point y ≥ 0, and of
maximum control-point x among those with y ≤ 0; defaults 0 and n-1. -/
def findTrailingEdgePanels (panels : List Panel) : ℕ × ℕ :=
  (panels.enum.foldl teStep ((0, panels.length - 1), none, none)).1

/-- Freestream velocity vector (solvePanelMethod lines 195-197):
(cos α, sin α) scaled by V∞. -/
def vInfVec (Vinf alpha : ℝ) : V2 := ⟨Real.cos alpha * Vinf, Real.sin alpha * Vinf⟩

/-- Normal influence of unit-strength source panel j at panel i's control point
(solvePanelMethod line 207). -/
def srcN (panels : List Panel) (j i : ℕ) : ℝ :=
  dot (panelInfluence (panels.getD j default) (panels.getD i default).control).sourceVelocity
    (panels.getD i default).normal

/-- Normal influence of unit-strength vortex panel j at panel i's control point
(line 208). -/
def vortN (panels : List Panel) (j i : ℕ) : ℝ :=
  dot (panelInfluence (panels.getD j default) (panels.getD i default).control).vortexVelocity
    (panels.getD i default).normal

/-- Tangential influence of unit-strength source panel j at panel i's control
point (lines 219-220, 252). -/
def srcT (panels : List Panel) (j i : ℕ) : ℝ :=
  dot (panelInfluence (panels.getD j default) (panels.getD i default).control).sourceVelocity
    (panels.getD i default).tangent

/-- Tangential influence of unit-strength vortex panel j at panel i's control
point (lines 228-229, 253). -/
def vortT (panels : List Panel) (j i : ℕ) : ℝ :=
  dot (panelInfluence (panels.getD j default) (panels.getD i default).control).vortexVelocity
    (panels.getD i default).tangent

/-- Summed unit-vortex normal influence at panel i (the shared circulation
column, lines 203-210). -/
def vortNSum (panels : List Panel) (i : ℕ) : ℝ :=
  ∑ j ∈ Finset.range panels.length, vortN panels j i

/-- Summed unit-vortex tangential influence at panel i (lines 223-230, 249-254). -/
def vortTSum (panels : List Panel) (i : ℕ) : ℝ :=
  ∑ j ∈ Finset.range panels.length, vortT panels j i

/-- Entry (i, j) of the assembled (n+1)x(n+1) panel-method matrix
(solvePanelMethod lines 199-231): flow-tangency rows for i < n, the Kutta row
for i = n; source columns for j < n, the shared vortex column for j = n. -/
def aEntry (panels : List Panel) (i j : ℕ) : ℝ :=
  let n := panels.length
  let te := findTrailingEdgePanels panels
  if i < n then
    (if j < n then srcN panels j i else vortNSum panels i)
  else
    (if j < n then srcT panels j te.1 - srcT panels j te.2
     else vortTSum panels te.1 - vortTSum panels te.2)

/-- Entry i of the assembled right-hand side (lines 202 and 232-236). -/
def bEntry (panels : List Panel) (vinfv : V2) (i : ℕ) : ℝ :=
  let n := panels.length
  let te := findTrailingEdgePanels panels
  if i < n then -dot vinfv (panels.getD i default).normal
  else -(dot vinfv (panels.getD te.1 default).tangent -
         dot vinfv (panels.getD te.2 default).tangent)

/-- The assembled matrix as a list of rows. -/
def systemMatrix (panels : List Panel) : List (List ℝ) :=
  (List.range (panels.length + 1)).map (fun i =>
    (List.range (panels.length + 1)).map (fun j => aEntry panels i j))

/-- The assembled right-hand side as a list. -/
def systemRhs (panels : List Panel) (vinfv : V2) : List ℝ :=
  (List.range (panels.length + 1)).map (fun i => bEntry panels vinfv i)

/-- Recovered total tangential velocity at panel i (solvePanelMethod lines
246-256): freestream tangential component plus source and vortex induced
tangential contributions. -/
def tangentialVelocityAt (panels : List Panel) (vinfv : V2) (sigma : List ℝ)
    (gamma : ℝ) (i : ℕ) : ℝ :=
  dot vinfv (panels.getD i default).tangent +
    (∑ j ∈ Finset.range panels.length, sigma.getD j 0 * srcT panels j i) +
    gamma * vortTSum panels i

/-- Total normal velocity at panel i's control point: freestream normal
component plus all source and vortex induced normal contributions.  This is the
flow-tangency residual of the i-th assembled equation. -/
def normalVelocityAt (panels : List Panel) (vinfv : V2) (sigma : List ℝ)
    (gamma : ℝ) (i : ℕ) : ℝ :=
  dot vinfv (panels.getD i default).normal +
    (∑ j ∈ Finset.range panels.length, sigma.getD j 0 * srcN panels j i) +
    gamma * vortNSum panels i

/-- Result record of the panel-method solver (type PanelMethodSolution). -/
structure PanelMethodSolution where
  panels : List Panel
  sigma : List ℝ
  gamma : ℝ
  vt : List ℝ
  cp : List ℝ

/-- The degenerate empty solution returned for contours yielding no panels
(solvePanelMethod lines 188-190). -/
def emptySolution : PanelMethodSolution := ⟨[], [], 0, [], []⟩

/-- aerodynamics.ts solvePanelMethod (lines 181-263): build panels, assemble
and solve the (n+1)x(n+1) tangency-plus-Kutta system, then recover per-panel
tangential velocity and pressure coefficient with the freestream magnitude
floored at 1e-6. -/
def solvePanelMethod (contour : List V2) (Vinf alpha : ℝ) : PanelMethodSolution :=
  let panels := buildPanels contour
  let n := panels.length
  if n = 0 then emptySolution
  else
    let vinfv := vInfVec Vinf alpha
    let sol := solveLinearSystem (systemMatrix panels) (systemRhs panels vinfv)
    let sigma := sol.take n
    let gamma := sol.getD n 0
    let vInfMag := max 1e-6 Vinf
    let vt := (List.range n).map (fun i => tangentialVelocityAt panels vinfv sigma gamma i)
    let cp := vt.map (fun t => 1 - t * t / (vInfMag * vInfMag))
    ⟨panels, sigma, gamma, vt, cp⟩

/-- aerodynamics.ts clamp (lines 17-18): Math.min(max, Math.max(min, value)). -/
def clamp (value lo hi : ℝ) : ℝ := min hi (max lo value)

/-- aerodynamics.ts thinAirfoilLiftCoefficient (lines 377-383): 2πα clamped to
the symmetric limit, default 1.6. -/
def thinAirfoilLiftCoefficient (alpha : ℝ) (clLimit : ℝ := 1.6) : ℝ :=
  clamp (2 * Real.pi * alpha) (-clLimit) clLimit

/-- geometry.ts clamp01 (line 19). -/
def clamp01 (value : ℝ) : ℝ := min 1 (max 0 value)

/-- Input record of the NACA generator (geometry.ts Naca4Parameters). -/
structure Naca4Parameters where
  m : ℝ
  p : ℝ
  t : ℝ
  chord : ℝ
  resolution : ℝ

/-- Output record of the NACA generator (geometry.ts AirfoilSurface). -/
structure AirfoilSurface where
  upper : List V2
  lower : List V2
  camber : List V2

/-- Station count of the NACA generator (geometry.ts line 70):
Math.max(20, Math.floor(resolution)). -/
def nacaCount (resolution : ℝ) : ℕ := (max 20 ⌊resolution⌋).toNat

/-- Cosine-spaced chordwise fraction at station i of count (lines 76-77). -/
def nacaXBar (count i : ℕ) : ℝ := 0.5 * (1 - Real.cos (Real.pi * i / count))

/-- Camber-line ordinate and slope at a chordwise fraction (geometry.ts lines
80-91): the two-piece NACA mean-line formula, active only when both clamped
camber parameters are positive. -/
def nacaCamberLine (mVal pVal xBar : ℝ) : ℝ × ℝ :=
  if 0 < mVal ∧ 0 < pVal then
    if xBar < pVal then
      ((mVal / (pVal * pVal)) * (2 * pVal * xBar - xBar * xBar),
       (2 * mVal / (pVal * pVal)) * (pVal - xBar))
    else
      ((mVal / ((1 - pVal) * (1 - pVal))) * ((1 - 2 * pVal) + 2 * pVal * xBar - xBar * xBar),
       (2 * mVal / ((1 - pVal) * (1 - pVal))) * (pVal - xBar))
  else (0, 0)

/-- NACA half-thickness polynomial scaled by 5t (geometry.ts lines 93-100). -/
def nacaThickness (tVal xBar : ℝ) : ℝ :=
  5 * tVal * (0.2969 * Real.sqrt xBar - 0.126 * xBar - 0.3516 * xBar * xBar +
    0.2843 * xBar ^ 3 - 0.1015 * xBar ^ 4)

/-- Upper-surface point at station i (geometry.ts lines 102-114): camber point
offset along the local camber normal by the half-thickness. -/
def nacaUpperPoint (params : Naca4Parameters) (i : ℕ) : V2 :=
  let xBar := nacaXBar (nacaCount params.resolution) i
  let cl := nacaCamberLine (clamp01 params.m) (clamp01 params.p) xBar
  let thetaCamber := Real.arctan cl.2
  let yt := nacaThickness (clamp01 params.t) xBar * params.chord
  ⟨xBar * params.chord - yt * Real.sin thetaCamber,
   cl.1 * params.chord + yt * Real.cos thetaCamber⟩

/-- Lower-surface point at station i (geometry.ts lines 111-115). -/
def nacaLowerPoint (params : Naca4Parameters) (i : ℕ) : V2 :=
  let xBar := nacaXBar (nacaCount params.resolution) i
  let cl := nacaCamberLine (clamp01 params.m) (clamp01 params.p) xBar
  let thetaCamber := Real.arctan cl.2
  let yt := nacaThickness (clamp01 params.t) xBar * params.chord
  ⟨xBar * params.chord + yt * Real.sin thetaCamber,
   cl.1 * params.chord - yt * Real.cos thetaCamber⟩

/-- Camber-line point at station i (geometry.ts line 116). -/
def nacaCamberPoint (params : Naca4Parameters) (i : ℕ) : V2 :=
  let xBar := nacaXBar (nacaCount params.resolution) i
  let cl := nacaCamberLine (clamp01 params.m) (clamp01 params.p) xBar
  ⟨xBar * params.chord, cl.1 * params.chord⟩

/-- geometry.ts generateNaca4Airfoil (lines 60-120): count+1 cosine-spaced
stations, upper/lower surfaces offset from the camber line along its local
normal. -/
def generateNaca4Airfoil (params : Naca4Parameters) : AirfoilSurface :=
  let count := nacaCount params.resolution
  { upper := (List.range (count + 1)).map (nacaUpperPoint params)
    lower := (List.range (count + 1)).map (nacaLowerPoint params)
    camber := (List.range (count + 1)).map (nacaCamberPoint params) }

/-- Modelled from the spec: geometry.ts also exports buildAirfoilContour, whose
source is not in the repository snapshot (only its two call sites are).  Spec
section 4.2 Contour Builder: concatenates the upper surface followed by the
lower surface reversed, with no further processing. -/
def buildAirfoilContour (surface : AirfoilSurface) : List V2 :=
  surface.upper ++ surface.lower.reverse

/-- Domain exit condition of both streamline integrators (part_001 line 61,
part_002 line 102): x beyond 1.6·chord, |y| beyond 1.6·chord, or x below
-0.8·chord. -/
def outOfDomain (chord : ℝ) (p : V2) : Prop :=
  1.6 * chord < p.x ∨ 1.6 * chord < |p.y| ∨ p.x < -0.8 * chord

instance (chord : ℝ) (p : V2) : Decidable (outOfDomain chord p) :=
  inferInstanceAs (Decidable (_ ∨ _ ∨ _))

/-- One fixed-arc-length RK4 displacement (shared body of both integrateStreamline
variants): each stage velocity has its magnitude floored at 1e-5, is normalized,
and scaled by the step; the stages combine with weights (1, 2, 2, 1)/6. -/
def rk4Delta (velocityAt : V2 → V2) (step : ℝ) (p : V2) : V2 :=
  let v1 := velocityAt p
  let s1 := max 1e-5 (v2len v1)
  let k1 : V2 := ⟨v1.x / s1 * step, v1.y / s1 * step⟩
  let v2 := velocityAt ⟨p.x + k1.x * 0.5, p.y + k1.y * 0.5⟩
  let s2 := max 1e-5 (v2len v2)
  let k2 : V2 := ⟨v2.x / s2 * step, v2.y / s2 * step⟩
  let v3 := velocityAt ⟨p.x + k2.x * 0.5, p.y + k2.y * 0.5⟩
  let s3 := max 1e-5 (v2len v3)
  let k3 : V2 := ⟨v3.x / s3 * step, v3.y / s3 * step⟩
  let v4 := velocityAt ⟨p.x + k3.x, p.y + k3.y⟩
  let s4 := max 1e-5 (v2len v4)
  let k4 : V2 := ⟨v4.x / s4 * step, v4.y / s4 * step⟩
  ⟨(k1.x + 2 * k2.x + 2 * k3.x + k4.x) * (1 / 6),
   (k1.y + 2 * k2.y + 2 * k3.y + k4.y) * (1 / 6)⟩

/-- Loop of the integrateStreamline variant of part_001 (lines 37-62), which
checks the near-stagnation early exit `speed < 1e-3` before each step. -/
def streamLoopStag (velocityAt : V2 → V2) (chord step : ℝ) : ℕ → V2 → List V2
  | 0, _ => []
  | fuel + 1, p =>
    if max 1e-5 (v2len (velocityAt p)) < 1e-3 then []
    else
      let d := rk4Delta velocityAt step p
      let q : V2 := ⟨p.x + d.x, p.y + d.y⟩
      q :: (if outOfDomain chord q then [] else streamLoopStag velocityAt chord step fuel q)

/-- Loop of the integrateStreamline variant of part_002 (lines 79-103), which
has no near-stagnation check. -/
def streamLoopPlain (velocityAt : V2 → V2) (chord step : ℝ) : ℕ → V2 → List V2
  | 0, _ => []
  | fuel + 1, p =>
    let d := rk4Delta velocityAt step p
    let q : V2 := ⟨p.x + d.x, p.y + d.y⟩
    q :: (if outOfDomain chord q then [] else streamLoopPlain velocityAt chord step fuel q)

/-- integrateStreamline of part_001 (lines 26-65): step 0.03·chord, budget 380
steps, near-stagnation early exit. -/
def integrateStreamlineStag (seed : V2) (velocityAt : V2 → V2) (chord : ℝ) : List V2 :=
  streamLoopStag velocityAt chord (0.03 * chord) 380 seed

/-- integrateStreamline of part_002 (lines 68-106): step 0.03·chord, budget 380
steps, no near-stagnation exit. -/
def integrateStreamlinePlain (seed : V2) (velocityAt : V2 → V2) (chord : ℝ) : List V2 :=
  streamLoopPlain velocityAt chord (0.03 * chord) 380 seed

/-- Claim C9: thinAirfoilLiftCoefficient equals 2πα when |2πα| ≤ 1.6, clamps to
+1.6 when 2πα exceeds 1.6 and to -1.6 when 2πα is below -1.6, and at
α = 0.05 rad it is 0.314 up to 0.001. -/
theorem thinAirfoilLiftCoefficient_clamps (alpha : ℝ) :
    (|2 * Real.pi * alpha| ≤ 1.6 →
      thinAirfoilLiftCoefficient alpha = 2 * Real.pi * alpha) ∧
    (1.6 < 2 * Real.pi * alpha → thinAirfoilLiftCoefficient alpha = 1.6) ∧
    (2 * Real.pi * alpha < -1.6 → thinAirfoilLiftCoefficient alpha = -1.6) ∧
    |thinAirfoilLiftCoefficient 0.05 - 0.314| < 0.001 := by
  have hlo := Real.pi_gt_d6
  have hhi := Real.pi_lt_d2
  refine ⟨fun h => ?_, fun h => ?_, fun h => ?_, ?_⟩
  · rcases abs_le.mp h with ⟨h1, h2⟩
    simp only [thinAirfoilLiftCoefficient, clamp]
    rw [max_eq_right h1, min_eq_right h2]
  · simp only [thinAirfoilLiftCoefficient, clamp]
    rw [max_eq_right (by linarith), min_eq_left (le_of_lt h)]
  · simp only [thinAirfoilLiftCoefficient, clamp]
    rw [max_eq_left (le_of_lt h), min_eq_right (by norm_num)]
  · have hraw : thinAirfoilLiftCoefficient 0.05 = 2 * Real.pi * 0.05 := by
      simp only [thinAirfoilLiftCoefficient, clamp]
      rw [max_eq_right (by nlinarith), min_eq_right (by nlinarith)]
    rw [hraw, abs_lt]
    constructor <;> nlinarith

/-- Witness for C9: at α = 1, where 2π exceeds the limit, the coefficient
clamps to 1.6. -/
theorem thinAirfoilLiftCoefficient_clamps_witness :
    thinAirfoilLiftCoefficient 1 = 1.6 := by
  have h := Real.pi_gt_d6
  exact (thinAirfoilLiftCoefficient_clamps 1).2.1 (by nlinarith)

/-- Claim C5: for a panel of positive length, the unit-strength vortex influence
is the source influence rotated -90 degrees, the source velocity is the global
rotation of the local components (logTerm/2π, atanTerm/2π), and the vortex
velocity is the global rotation of (atanTerm/2π, -logTerm/2π); the squared
distances inside logTermOf are floored at 1e-12 by safeSq. -/
theorem panelInfluence_vortex_dual (panel : Panel) (point : V2)
    (h : 0 < panelLen panel) :
    (panelInfluence panel point).vortexVelocity =
      ⟨(panelInfluence panel point).sourceVelocity.y,
       -(panelInfluence panel point).sourceVelocity.x⟩ ∧
    (panelInfluence panel point).sourceVelocity =
      ⟨1 / (2 * Real.pi) * logTermOf panel point * panelCosT panel -
        1 / (2 * Real.pi) * atanTermOf panel point * panelSinT panel,
       1 / (2 * Real.pi) * logTermOf panel point * panelSinT panel +
        1 / (2 * Real.pi) * atanTermOf panel point * panelCosT panel⟩ ∧
    (panelInfluence panel point).vortexVelocity =
      ⟨1 / (2 * Real.pi) * atanTermOf panel point * panelCosT panel -
        -(1 / (2 * Real.pi) * logTermOf panel point) * panelSinT panel,
       1 / (2 * Real.pi) * atanTermOf panel point * panelSinT panel +
        -(1 / (2 * Real.pi) * logTermOf panel point) * panelCosT panel⟩ := by
  refine ⟨?_, rfl, rfl⟩
  simp only [panelInfluence, V2.mk.injEq]
  constructor <;> ring

/-- Witness for C5: a concrete unit-length panel from (0,0) to (1,0). -/
theorem panelInfluence_vortex_dual_witness :
    (panelInfluence ⟨⟨0, 0⟩, ⟨1, 0⟩, ⟨0.5, 0⟩, ⟨1, 0⟩, ⟨0, -1⟩, 1⟩ ⟨0.5, 1⟩).vortexVelocity =
      ⟨(panelInfluence ⟨⟨0, 0⟩, ⟨1, 0⟩, ⟨0.5, 0⟩, ⟨1, 0⟩, ⟨0, -1⟩, 1⟩ ⟨0.5, 1⟩).sourceVelocity.y,
       -(panelInfluence ⟨⟨0, 0⟩, ⟨1, 0⟩, ⟨0.5, 0⟩, ⟨1, 0⟩, ⟨0, -1⟩, 1⟩ ⟨0.5, 1⟩).sourceVelocity.x⟩ := by
  refine (panelInfluence_vortex_dual _ _ ?_).1
  simp only [panelLen, hypot]
  norm_num

/-- Claim C8: the defensive floors of the pipeline.  The Gaussian pivot and
back-substitution denominator safeDenom is never zero and is 1e-12 at zero, the
squared-distance floor safeSq is strictly positive (hence so is the argument of
the logarithm in logTermOf), the freestream magnitude floor is at least 1e-6,
and the RK4 stage-speed floor is at least 1e-5.  All embedded functions are
total Lean definitions, so no error branch exists. -/
theorem pipeline_denominator_floors :
    (∀ v : ℝ, safeDenom v ≠ 0) ∧
    safeDenom 0 = 1e-12 ∧
    (∀ r : ℝ, 0 < safeSq r) ∧
    (∀ r s : ℝ, 0 < safeSq r / safeSq s) ∧
    (∀ Vinf : ℝ, 1e-6 ≤ max 1e-6 Vinf) ∧
    (∀ v : V2, 1e-5 ≤ max 1e-5 (v2len v)) := by
  have hsq : ∀ r : ℝ, 0 < safeSq r := fun r =>
    lt_of_lt_of_le (by norm_num) (le_max_right r 1e-12)
  refine ⟨fun v => ?_, by simp [safeDenom], hsq,
    fun r s => div_pos (hsq r) (hsq s), fun Vinf => le_max_left _ _,
    fun v => le_max_left _ _⟩
  by_cases hv : v = 0
  · simp only [safeDenom, hv, if_pos]
    norm_num
  · simp [safeDenom, hv]

/-- Claim C2: a contour with fewer than 3 points, or one whose panel count is
zero after assembly, yields the empty solution (no panels, no source strengths,
zero circulation, no tangential velocities, no pressure coefficients); the
embedded solver is a total function, so no error is signalled. -/
theorem solvePanelMethod_degenerate (contour : List V2) (Vinf alpha : ℝ)
    (h : contour.length < 3 ∨ (buildPanels contour).length = 0) :
    solvePanelMethod contour Vinf alpha = ⟨[], [], 0, [], []⟩ := by
  have hz : (buildPanels contour).length = 0 := by
    rcases h with h | h
    · simp [buildPanels, h]
    · exact h
  simp [solvePanelMethod, hz, emptySolution]

/-- Witness for C2: the two-point contour [(0,0), (1,0)]. -/
theorem solvePanelMethod_degenerate_witness :
    solvePanelMethod [⟨0, 0⟩, ⟨1, 0⟩] 1 0 = ⟨[], [], 0, [], []⟩ :=
  solvePanelMethod_degenerate [⟨0, 0⟩, ⟨1, 0⟩] 1 0 (Or.inl (by norm_num))

lemma streamLoopStag_succ (f : V2 → V2) (c s : ℝ) (fuel : ℕ) (p : V2) :
    streamLoopStag f c s (fuel + 1) p =
      if max 1e-5 (v2len (f p)) < 1e-3 then []
      else
        (⟨p.x + (rk4Delta f s p).x, p.y + (rk4Delta f s p).y⟩ : V2) ::
          (if outOfDomain c ⟨p.x + (rk4Delta f s p).x, p.y + (rk4Delta f s p).y⟩ then []
           else streamLoopStag f c s fuel ⟨p.x + (rk4Delta f s p).x, p.y + (rk4Delta f s p).y⟩) :=
  rfl

lemma streamLoopPlain_succ (f : V2 → V2) (c s : ℝ) (fuel : ℕ) (p : V2) :
    streamLoopPlain f c s (fuel + 1) p =
      (⟨p.x + (rk4Delta f s p).x, p.y + (rk4Delta f s p).y⟩ : V2) ::
        (if outOfDomain c ⟨p.x + (rk4Delta f s p).x, p.y + (rk4Delta f s p).y⟩ then []
         else streamLoopPlain f c s fuel ⟨p.x + (rk4Delta f s p).x, p.y + (rk4Delta f s p).y⟩) :=
  rfl

lemma streamLoopStag_length_le (f : V2 → V2) (c s : ℝ) :
    ∀ fuel (p : V2), (streamLoopStag f c s fuel p).length ≤ fuel := by
  intro fuel
  induction fuel with
  | zero => intro p; simp [streamLoopStag]
  | succ n ih =>
    intro p
    rw [streamLoopStag_succ]
    split
    · simp
    · split
      · simp
      · simpa using Nat.succ_le_succ (ih _)

lemma streamLoopPlain_length_le (f : V2 → V2) (c s : ℝ) :
    ∀ fuel (p : V2), (streamLoopPlain f c s fuel p).length ≤ fuel := by
  intro fuel
  induction fuel with
  | zero => intro p; simp [streamLoopPlain]
  | succ n ih =>
    intro p
    rw [streamLoopPlain_succ]
    split
    · simp
    · simpa using Nat.succ_le_succ (ih _)

lemma streamLoopStag_inbounds (f : V2 → V2) (c s : ℝ) :
    ∀ fuel (p : V2) (i : ℕ), i + 1 < (streamLoopStag f c s fuel p).length →
      ¬outOfDomain c ((streamLoopStag f c s fuel p).getD i default) := by
  intro fuel
  induction fuel with
  | zero => intro p i h; simp [streamLoopStag] at h
  | succ n ih =>
    intro p i h
    rw [streamLoopStag_succ] at h ⊢
    by_cases hs : max 1e-5 (v2len (f p)) < 1e-3
    · rw [if_pos hs] at h; simp at h
    · rw [if_neg hs] at h ⊢
      by_cases hq : outOfDomain c
          (⟨p.x + (rk4Delta f s p).x, p.y + (rk4Delta f s p).y⟩ : V2)
      · rw [if_pos hq] at h; simp at h
      · rw [if_neg hq] at h ⊢
        cases i with
        | zero => simpa using hq
        | succ j =>
          simp only [List.length_cons] at h
          simpa using ih _ j (by omega)

lemma streamLoopPlain_inbounds (f : V2 → V2) (c s : ℝ) :
    ∀ fuel (p : V2) (i : ℕ), i + 1 < (streamLoopPlain f c s fuel p).length →
      ¬outOfDomain c ((streamLoopPlain f c s fuel p).getD i default) := by
  intro fuel
  induction fuel with
  | zero => intro p i h; simp [streamLoopPlain] at h
  | succ n ih =>
    intro p i h
    rw [streamLoopPlain_succ] at h ⊢
    by_cases hq : outOfDomain c
        (⟨p.x + (rk4Delta f s p).x, p.y + (rk4Delta f s p).y⟩ : V2)
    · rw [if_pos hq] at h; simp at h
    · rw [if_neg hq] at h ⊢
      cases i with
      | zero => simpa using hq
      | succ j =>
        simp only [List.length_cons] at h
        simpa using ih _ j (by omega)

lemma streamLoopPlain_short_last (f : V2 → V2) (c s : ℝ) :
    ∀ fuel (p : V2), (streamLoopPlain f c s fuel p).length < fuel →
      ∃ q, (streamLoopPlain f c s fuel p).getLast? = some q ∧ outOfDomain c q := by
  intro fuel
  induction fuel with
  | zero => intro p h; simp at h
  | succ n ih =>
    intro p h
    rw [streamLoopPlain_succ] at h ⊢
    by_cases hq : outOfDomain c
        (⟨p.x + (rk4Delta f s p).x, p.y + (rk4Delta f s p).y⟩ : V2)
    · rw [if_pos hq]
      exact ⟨_, by simp, hq⟩
    · rw [if_neg hq] at h ⊢
      simp only [List.length_cons] at h
      have hlen : (streamLoopPlain f c s n
          (⟨p.x + (rk4Delta f s p).x, p.y + (rk4Delta f s p).y⟩ : V2)).length < n := by
        omega
      obtain ⟨r, hr, hro⟩ := ih _ hlen
      refine ⟨r, ?_, hro⟩
      have hne : streamLoopPlain f c s n
          (⟨p.x + (rk4Delta f s p).x, p.y + (rk4Delta f s p).y⟩ : V2) ≠ [] := by
        intro hnil
        rw [hnil] at hr
        simp at hr
      obtain ⟨b, t, hbt⟩ := List.exists_cons_of_ne_nil hne
      rw [hbt] at hr ⊢
      rw [List.getLast?_cons_cons]
      exact hr

/-- Claim C7: both integrateStreamline variants return at most 380 points, and
in both, every returned point except possibly the last satisfies the domain
bounds (x ≤ 1.6·chord, x ≥ -0.8·chord, |y| ≤ 1.6·chord): the march stops at the
first computed point that violates them. -/
theorem integrateStreamline_bounds (seed : V2) (f : V2 → V2) (chord : ℝ) :
    (integrateStreamlineStag seed f chord).length ≤ 380 ∧
    (integrateStreamlinePlain seed f chord).length ≤ 380 ∧
    (∀ i, i + 1 < (integrateStreamlineStag seed f chord).length →
      ¬outOfDomain chord ((integrateStreamlineStag seed f chord).getD i default)) ∧
    (∀ i, i + 1 < (integrateStreamlinePlain seed f chord).length →
      ¬outOfDomain chord ((integrateStreamlinePlain seed f chord).getD i default)) :=
  ⟨streamLoopStag_length_le f chord (0.03 * chord) 380 seed,
   streamLoopPlain_length_le f chord (0.03 * chord) 380 seed,
   fun i h => streamLoopStag_inbounds f chord (0.03 * chord) 380 seed i h,
   fun i h => streamLoopPlain_inbounds f chord (0.03 * chord) 380 seed i h⟩

/-- Claim C3: the near-stagnation early exit (local speed below 1e-3) exists
only in the part_001 variant: that variant returns immediately whenever the
speed at the current point is below 1e-3, while the part_002 (panel-method
scene) variant can only stop short of the 380-step budget by leaving the
domain, in which case its last point violates the bounds. -/
theorem streamline_stagnation_exit_variants (seed : V2) (f : V2 → V2) (chord : ℝ) :
    (∀ (p : V2) (fuel : ℕ), v2len (f p) < 1e-3 →
      streamLoopStag f chord (0.03 * chord) (fuel + 1) p = []) ∧
    (v2len (f seed) < 1e-3 → integrateStreamlineStag seed f chord = []) ∧
    ((integrateStreamlinePlain seed f chord).length < 380 →
      ∃ q, (integrateStreamlinePlain seed f chord).getLast? = some q ∧
        outOfDomain chord q) := by
  have hstag : ∀ (p : V2) (fuel : ℕ), v2len (f p) < 1e-3 →
      streamLoopStag f chord (0.03 * chord) (fuel + 1) p = [] := by
    intro p fuel h
    rw [streamLoopStag_succ, if_pos (max_lt (by norm_num) h)]
  refine ⟨hstag, fun h => ?_,
    fun h => streamLoopPlain_short_last f chord (0.03 * chord) 380 seed h⟩
  rw [integrateStreamlineStag, show (380 : ℕ) = 379 + 1 by norm_num]
  exact hstag seed 379 h

lemma rk4Delta_const (v : V2) (s : ℝ) (p : V2) :
    rk4Delta (fun _ => v) s p =
      ⟨v.x / max 1e-5 (v2len v) * s, v.y / max 1e-5 (v2len v) * s⟩ := by
  simp only [rk4Delta, V2.mk.injEq]
  constructor <;> ring

lemma v2len_unit_x : v2len ⟨1, 0⟩ = 1 := by
  rw [v2len]
  norm_num

lemma rk4Delta_unit_x (p : V2) :
    rk4Delta (fun _ => (⟨1, 0⟩ : V2)) (0.03 * 1) p = ⟨0.03, 0⟩ := by
  rw [rk4Delta_const, v2len_unit_x, max_eq_right (by norm_num : (1e-5 : ℝ) ≤ 1)]
  simp only [V2.mk.injEq]
  norm_num

lemma plain_exit_eval :
    integrateStreamlinePlain ⟨2, 0⟩ (fun _ => ⟨1, 0⟩) 1 = [⟨2.03, 0⟩] := by
  rw [integrateStreamlinePlain, show (380 : ℕ) = 379 + 1 by norm_num,
    streamLoopPlain_succ, rk4Delta_unit_x]
  rw [if_pos (by rw [outOfDomain]; norm_num : outOfDomain 1 (⟨(2 : ℝ) + 0.03, (0 : ℝ) + 0⟩ : V2))]
  norm_num

/-- Witness for C3: with the zero velocity field the stagnating variant returns
no points at all, and with a unit velocity field from a seed beyond the domain
the plain variant stops short of the budget with an out-of-domain last point. -/
theorem streamline_stagnation_exit_variants_witness :
    integrateStreamlineStag ⟨0, 0⟩ (fun _ => ⟨0, 0⟩) 1 = [] ∧
    (∃ q, (integrateStreamlinePlain ⟨2, 0⟩ (fun _ => ⟨1, 0⟩) 1).getLast? = some q ∧
      outOfDomain 1 q) := by
  constructor
  · exact (streamline_stagnation_exit_variants ⟨0, 0⟩ (fun _ => ⟨0, 0⟩) 1).2.1
      (by rw [v2len]; norm_num)
  · exact (streamline_stagnation_exit_variants ⟨2, 0⟩ (fun _ => ⟨1, 0⟩) 1).2.2
      (by rw [plain_exit_eval]; norm_num)

lemma stag_two_step_eval :
    integrateStreamlineStag ⟨1.55, 0⟩ (fun _ => ⟨1, 0⟩) 1 = [⟨1.58, 0⟩, ⟨1.61, 0⟩] := by
  have hnostag : ¬max 1e-5 (v2len (⟨1, 0⟩ : V2)) < 1e-3 := by
    rw [v2len_unit_x, max_eq_right (by norm_num : (1e-5 : ℝ) ≤ 1)]
    norm_num
  rw [integrateStreamlineStag, show (380 : ℕ) = 378 + 1 + 1 by norm_num,
    streamLoopStag_succ, if_neg hnostag, rk4Delta_unit_x]
  rw [if_neg (by rw [outOfDomain]; push_neg; norm_num :
    ¬outOfDomain 1 (⟨(1.55 : ℝ) + 0.03, (0 : ℝ) + 0⟩ : V2))]
  rw [streamLoopStag_succ, if_neg hnostag, rk4Delta_unit_x]
  rw [if_pos (by rw [outOfDomain]; norm_num :
    outOfDomain 1 (⟨(1.55 : ℝ) + 0.03 + 0.03, (0 : ℝ) + 0 + 0⟩ : V2))]
  norm_num

lemma plain_two_step_eval :
    integrateStreamlinePlain ⟨1.55, 0⟩ (fun _ => ⟨1, 0⟩) 1 = [⟨1.58, 0⟩, ⟨1.61, 0⟩] := by
  rw [integrateStreamlinePlain, show (380 : ℕ) = 378 + 1 + 1 by norm_num,
    streamLoopPlain_succ, rk4Delta_unit_x]
  rw [if_neg (by rw [outOfDomain]; push_neg; norm_num :
    ¬outOfDomain 1 (⟨(1.55 : ℝ) + 0.03, (0 : ℝ) + 0⟩ : V2))]
  rw [streamLoopPlain_succ, rk4Delta_unit_x]
  rw [if_pos (by rw [outOfDomain]; norm_num :
    outOfDomain 1 (⟨(1.55 : ℝ) + 0.03 + 0.03, (0 : ℝ) + 0 + 0⟩ : V2))]
  norm_num

/-- Witness for C7: a concrete two-point trace in each variant whose non-final
point is inside the domain bounds. -/
theorem integrateStreamline_bounds_witness :
    ¬outOfDomain 1 ((integrateStreamlineStag ⟨1.55, 0⟩ (fun _ => ⟨1, 0⟩) 1).getD 0 default) ∧
    ¬outOfDomain 1 ((integrateStreamlinePlain ⟨1.55, 0⟩ (fun _ => ⟨1, 0⟩) 1).getD 0 default) := by
  constructor
  · exact (integrateStreamline_bounds ⟨1.55, 0⟩ (fun _ => ⟨1, 0⟩) 1).2.2.1 0
      (by rw [stag_two_step_eval]; norm_num)
  · exact (integrateStreamline_bounds ⟨1.55, 0⟩ (fun _ => ⟨1, 0⟩) 1).2.2.2 0
      (by rw [plain_two_step_eval]; norm_num)

lemma naca_flat_point (p chord resolution : ℝ) (i : ℕ) :
    nacaUpperPoint ⟨0, p, 0, chord, resolution⟩ i =
      ⟨nacaXBar (nacaCount resolution) i * chord, 0⟩ ∧
    nacaLowerPoint ⟨0, p, 0, chord, resolution⟩ i =
      ⟨nacaXBar (nacaCount resolution) i * chord, 0⟩ := by
  have hm : clamp01 0 = 0 := by rw [clamp01]; norm_num
  have hcl : nacaCamberLine (clamp01 0) (clamp01 p) (nacaXBar (nacaCount resolution) i) =
      (0, 0) := by
    rw [hm, nacaCamberLine, if_neg]
    rintro ⟨h0, -⟩
    exact lt_irrefl 0 h0
  have hth : nacaThickness (clamp01 0) (nacaXBar (nacaCount resolution) i) = 0 := by
    rw [hm, nacaThickness]; ring
  constructor <;>
    simp only [nacaUpperPoint, nacaLowerPoint, hcl, hth, V2.mk.injEq] <;>
    constructor <;> ring

lemma nacaXBar_mem_unit (count i : ℕ) : 0 ≤ nacaXBar count i ∧ nacaXBar count i ≤ 1 := by
  rw [nacaXBar]
  have h1 := Real.cos_le_one (Real.pi * i / count)
  have h2 := Real.neg_one_le_cos (Real.pi * i / count)
  constructor <;> nlinarith

/-- Claim C6: with thickness 0 and camber 0 the NACA generator produces
identical upper and lower surfaces, every point lying on the chord line
(y = 0) with x between 0 and chord. -/
theorem naca_zero_thickness_flat_plate (p chord resolution : ℝ) :
    (generateNaca4Airfoil ⟨0, p, 0, chord, resolution⟩).upper =
      (generateNaca4Airfoil ⟨0, p, 0, chord, resolution⟩).lower ∧
    ∀ pt ∈ (generateNaca4Airfoil ⟨0, p, 0, chord, resolution⟩).upper,
      pt.y = 0 ∧ min 0 chord ≤ pt.x ∧ pt.x ≤ max 0 chord := by
  constructor
  · simp only [generateNaca4Airfoil]
    refine List.map_congr_left fun i _ => ?_
    rw [(naca_flat_point p chord resolution i).1, (naca_flat_point p chord resolution i).2]
  · intro pt hpt
    simp only [generateNaca4Airfoil, List.mem_map, List.mem_range] at hpt
    obtain ⟨i, -, rfl⟩ := hpt
    rw [(naca_flat_point p chord resolution i).1]
    obtain ⟨hx0, hx1⟩ := nacaXBar_mem_unit (nacaCount resolution) i
    dsimp only
    refine ⟨rfl, ?_, ?_⟩
    · rcases le_total 0 chord with hc | hc
      · rw [min_eq_left hc]
        exact mul_nonneg hx0 hc
      · rw [min_eq_right hc]
        nlinarith
    · rcases le_total 0 chord with hc | hc
      · rw [max_eq_right hc]
        nlinarith
      · rw [max_eq_left hc]
        nlinarith

/-- Witness for C6: the leading-edge station of a concrete zero-thickness,
zero-camber surface. -/
theorem naca_zero_thickness_flat_plate_witness :
    (nacaUpperPoint ⟨0, 0.4, 0, 1, 20⟩ 0).y = 0 ∧
    min 0 1 ≤ (nacaUpperPoint ⟨0, 0.4, 0, 1, 20⟩ 0).x ∧
    (nacaUpperPoint ⟨0, 0.4, 0, 1, 20⟩ 0).x ≤ max 0 1 := by
  refine (naca_zero_thickness_flat_plate 0.4 1 20).2 _ ?_
  show nacaUpperPoint ⟨0, 0.4, 0, 1, 20⟩ 0 ∈
    (List.range (nacaCount 20 + 1)).map (nacaUpperPoint ⟨0, 0.4, 0, 1, 20⟩)
  exact List.mem_map_of_mem _ (List.mem_range.mpr (Nat.succ_pos _))

lemma nacaXBar_zero (count : ℕ) : nacaXBar count 0 = 0 := by
  rw [nacaXBar]
  norm_num

lemma nacaThickness_at_zero (t : ℝ) : nacaThickness t 0 = 0 := by
  rw [nacaThickness]
  norm_num

lemma nacaCamberLine_fst_at_zero (m p : ℝ) :
    (nacaCamberLine (clamp01 m) (clamp01 p) 0).1 = 0 := by
  rw [nacaCamberLine]
  split_ifs with h1 h2
  · ring
  · exact absurd h1.2 h2
  · rfl

lemma naca_first_points (params : Naca4Parameters) :
    nacaUpperPoint params 0 = ⟨0, 0⟩ ∧ nacaLowerPoint params 0 = ⟨0, 0⟩ := by
  constructor <;>
    simp only [nacaUpperPoint, nacaLowerPoint, nacaXBar_zero, nacaThickness_at_zero,
      nacaCamberLine_fst_at_zero, V2.mk.injEq] <;>
    constructor <;> ring

lemma naca_surface_lengths (params : Naca4Parameters) :
    (generateNaca4Airfoil params).upper.length = nacaCount params.resolution + 1 ∧
    (generateNaca4Airfoil params).lower.length = nacaCount params.resolution + 1 := by
  simp [generateNaca4Airfoil]

lemma naca_contour_autoClose (params : Naca4Parameters) :
    autoClose (buildAirfoilContour (generateNaca4Airfoil params)) =
      buildAirfoilContour (generateNaca4Airfoil params) := by
  have hu : (generateNaca4Airfoil params).upper =
      (List.range (nacaCount params.resolution + 1)).map (nacaUpperPoint params) := rfl
  have hl : (generateNaca4Airfoil params).lower =
      (List.range (nacaCount params.resolution + 1)).map (nacaLowerPoint params) := rfl
  have hul : (generateNaca4Airfoil params).upper.length = nacaCount params.resolution + 1 := by
    rw [hu]; simp
  have hll : (generateNaca4Airfoil params).lower.length = nacaCount params.resolution + 1 := by
    rw [hl]; simp
  have hlen : (buildAirfoilContour (generateNaca4Airfoil params)).length =
      2 * nacaCount params.resolution + 2 := by
    rw [buildAirfoilContour]
    simp only [List.length_append, List.length_reverse, hul, hll]
    omega
  have h0 : (buildAirfoilContour (generateNaca4Airfoil params)).getD 0 default =
      (⟨0, 0⟩ : V2) := by
    rw [buildAirfoilContour, List.getD_eq_getElem?_getD,
      List.getElem?_append_left (by rw [hul]; omega), hu, List.getElem?_map,
      List.getElem?_range (by omega)]
    simp [(naca_first_points params).1]
  have h1 : (buildAirfoilContour (generateNaca4Airfoil params)).getD
      ((buildAirfoilContour (generateNaca4Airfoil params)).length - 1) default =
      (⟨0, 0⟩ : V2) := by
    rw [hlen, buildAirfoilContour, List.getD_eq_getElem?_getD,
      List.getElem?_append_right (by rw [hul]; omega)]
    simp only [hul]
    rw [show 2 * nacaCount params.resolution + 2 - 1 - (nacaCount params.resolution + 1) =
      nacaCount params.resolution from by omega]
    rw [List.getElem?_reverse (by rw [hll]; omega)]
    simp only [hll]
    rw [show nacaCount params.resolution + 1 - 1 - nacaCount params.resolution = 0 from by
      omega]
    rw [hl, List.getElem?_map, List.getElem?_range (by omega)]
    simp [(naca_first_points params).2]
  rw [autoClose]
  simp only [h0, h1]
  rw [if_pos]
  rw [distV2, hypot]
  norm_num

/-- Claim C10, amended: for positive clamped thickness and positive chord the
NACA half-thickness polynomial at the trailing edge equals the nonzero value
5·t·0.0021, so the last upper point lies strictly above the last lower point
(an open trailing edge); however the auto-closing append is NOT exercised: the
contour built from the surfaces starts and ends at the leading edge point
(0, 0), so the closure step keeps it unchanged and the trailing-edge gap is
spanned by a regular panel. -/
theorem naca_open_trailing_edge (m p t chord resolution : ℝ)
    (ht : 0 < clamp01 t) (hc : 0 < chord) :
    nacaThickness (clamp01 t) 1 = 5 * clamp01 t * 0.0021 ∧
    ((generateNaca4Airfoil ⟨m, p, t, chord, resolution⟩).lower.getD
        (nacaCount resolution) default).y <
      ((generateNaca4Airfoil ⟨m, p, t, chord, resolution⟩).upper.getD
        (nacaCount resolution) default).y ∧
    autoClose (buildAirfoilContour (generateNaca4Airfoil ⟨m, p, t, chord, resolution⟩)) =
      buildAirfoilContour (generateNaca4Airfoil ⟨m, p, t, chord, resolution⟩) := by
  have hpoly : ∀ s : ℝ, nacaThickness s 1 = 5 * s * 0.0021 := by
    intro s
    rw [nacaThickness, Real.sqrt_one]
    ring
  have hxbar : nacaXBar (nacaCount resolution) (nacaCount resolution) = 1 := by
    have h20 : 20 ≤ nacaCount resolution := by
      have hle : (20 : ℤ) ≤ max 20 ⌊resolution⌋ := le_max_left _ _
      calc 20 = ((20 : ℤ)).toNat := rfl
        _ ≤ (max 20 ⌊resolution⌋).toNat := Int.toNat_le_toNat hle
    have hne : ((nacaCount resolution : ℕ) : ℝ) ≠ 0 := Nat.cast_ne_zero.mpr (by omega)
    rw [nacaXBar, mul_div_assoc, div_self hne, mul_one, Real.cos_pi]
    norm_num
  have hup : (generateNaca4Airfoil ⟨m, p, t, chord, resolution⟩).upper.getD
      (nacaCount resolution) default =
      nacaUpperPoint ⟨m, p, t, chord, resolution⟩ (nacaCount resolution) := by
    rw [show (generateNaca4Airfoil ⟨m, p, t, chord, resolution⟩).upper =
        (List.range (nacaCount resolution + 1)).map
          (nacaUpperPoint ⟨m, p, t, chord, resolution⟩) from rfl,
      List.getD_eq_getElem?_getD, List.getElem?_map, List.getElem?_range (by omega)]
    simp
  have hlow : (generateNaca4Airfoil ⟨m, p, t, chord, resolution⟩).lower.getD
      (nacaCount resolution) default =
      nacaLowerPoint ⟨m, p, t, chord, resolution⟩ (nacaCount resolution) := by
    rw [show (generateNaca4Airfoil ⟨m, p, t, chord, resolution⟩).lower =
        (List.range (nacaCount resolution + 1)).map
          (nacaLowerPoint ⟨m, p, t, chord, resolution⟩) from rfl,
      List.getD_eq_getElem?_getD, List.getElem?_map, List.getElem?_range (by omega)]
    simp
  refine ⟨hpoly (clamp01 t), ?_, naca_contour_autoClose _⟩
  rw [hup, hlow, nacaUpperPoint, nacaLowerPoint]
  dsimp only
  rw [hxbar]
  have hyt : 0 < nacaThickness (clamp01 t) 1 * chord := by
    rw [hpoly]
    positivity
  have hcos : 0 < Real.cos (Real.arctan
      (nacaCamberLine (clamp01 m) (clamp01 p) 1).2) := by
    rw [Real.cos_arctan]
    positivity
  nlinarith [mul_pos hyt hcos]

/-- Counterexample for C10 as stated: for the NACA surface with thickness 0.12
and chord 1 the contour built from the surfaces is left unchanged by the
auto-closing step (its first and last points are the coincident leading edge),
so panel assembly does NOT append the first point, although the claim asserts
that it does. -/
theorem naca_no_autoclose_counterexample :
    autoClose (buildAirfoilContour (generateNaca4Airfoil ⟨0, 0, 0.12, 1, 20⟩)) =
      buildAirfoilContour (generateNaca4Airfoil ⟨0, 0, 0.12, 1, 20⟩) ∧
    buildAirfoilContour (generateNaca4Airfoil ⟨0, 0, 0.12, 1, 20⟩) ≠
      buildAirfoilContour (generateNaca4Airfoil ⟨0, 0, 0.12, 1, 20⟩) ++
        [(buildAirfoilContour (generateNaca4Airfoil ⟨0, 0, 0.12, 1, 20⟩)).getD 0 default] := by
  refine ⟨naca_contour_autoClose _, fun h => ?_⟩
  have hlen := congrArg List.length h
  simp at hlen

/-- Witness for C10 (amended): the open trailing edge and unchanged contour at
thickness 0.12, chord 1. -/
theorem naca_open_trailing_edge_witness :
    ((generateNaca4Airfoil ⟨0, 0, 0.12, 1, 20⟩).lower.getD (nacaCount 20) default).y <
      ((generateNaca4Airfoil ⟨0, 0, 0.12, 1, 20⟩).upper.getD (nacaCount 20) default).y := by
  refine (naca_open_trailing_edge 0 0 0.12 1 20 ?_ (by norm_num)).2.1
  rw [clamp01]
  norm_num

/-- Spec-side loop closure, following the claim wording for C4: append the
first point exactly when first and last are at least 1e-6 apart. -/
def closeLoopSpec (loop : List V2) : List V2 :=
  match loop.head?, loop.getLast? with
  | some f, some l => if 1e-6 ≤ distV2 f l then loop ++ [f] else loop
  | _, _ => loop

/-- Spec-side shoelace signed area: half the cyclic sum of cross terms over the
loop zipped with its rotation by one position. -/
def shoelaceArea (pts : List V2) : ℝ :=
  0.5 * ((pts.zip (pts.drop 1 ++ pts.take 1)).map
    (fun ab => ab.1.x * ab.2.y - ab.2.x * ab.1.y)).sum

/-- Spec-side orientation normalization: reverse exactly when the shoelace area
is positive (counter-clockwise). -/
def orientSpec (pts : List V2) : List V2 :=
  if 0 < shoelaceArea pts then pts.reverse else pts

/-- Spec-side per-pair panel emission: no panel for a zero-length pair,
otherwise length = segment length, tangent = unit vector from start to end,
normal = (tangent.y, -tangent.x), control point = midpoint. -/
def panelOfPairSpec (s e : V2) : Option Panel :=
  if distV2 s e = 0 then none
  else some
    { start := s
      pend := e
      control := ⟨(s.x + e.x) / 2, (s.y + e.y) / 2⟩
      tangent := ⟨(e.x - s.x) / distV2 s e, (e.y - s.y) / distV2 s e⟩
      normal := ⟨(e.y - s.y) / distV2 s e, -((e.x - s.x) / distV2 s e)⟩
      length := distV2 s e }

/-- Spec-side panel assembly, transcribed from the C4 claim sentence: close the
loop, normalize orientation, then emit one candidate panel per consecutive
point pair. -/
def buildPanelsSpec (loop : List V2) : List Panel :=
  ((orientSpec (closeLoopSpec loop)).zip (orientSpec (closeLoopSpec loop)).tail).filterMap
    (fun ab => panelOfPairSpec ab.1 ab.2)

lemma autoClose_eq_closeLoopSpec (loop : List V2) (h : loop ≠ []) :
    autoClose loop = closeLoopSpec loop := by
  obtain ⟨a, t, rfl⟩ := List.exists_cons_of_ne_nil h
  obtain ⟨last, hlast⟩ := Option.isSome_iff_exists.mp
    (List.getLast?_isSome.mpr (List.cons_ne_nil a t))
  have hhead : (a :: t).head? = some a := rfl
  have hget : (a :: t).getD 0 default = a := rfl
  have hgetl : (a :: t).getD ((a :: t).length - 1) default = last := by
    rw [List.getD_eq_getElem?_getD, ← List.getLast?_eq_getElem?, hlast]
    rfl
  rw [autoClose, closeLoopSpec]
  simp only [hhead, hlast, hget, hgetl]
  rcases lt_or_le (distV2 a last) 1e-6 with hd | hd
  · rw [if_pos hd, if_neg (by linarith)]
  · rw [if_neg (by linarith), if_pos hd]

lemma rot_getElem (pts : List V2) (i : ℕ) (hi : i < pts.length) :
    (pts.drop 1 ++ pts.take 1)[i]? = pts[(i + 1) % pts.length]? := by
  rcases Nat.lt_or_ge i (pts.length - 1) with h | h
  · rw [List.getElem?_append_left (by simp [List.length_drop]; omega),
      List.getElem?_drop, Nat.mod_eq_of_lt (by omega)]
    congr 1
    omega
  · have hi' : i = pts.length - 1 := by omega
    rw [List.getElem?_append_right (by simp [List.length_drop]; omega),
      List.getElem?_take]
    rw [show i - (pts.drop 1).length = 0 from by simp [List.length_drop]; omega]
    rw [if_pos (by omega), show (i + 1) % pts.length = 0 from by
      rw [hi', Nat.sub_add_cancel (by omega), Nat.mod_self]]

lemma polygonArea_eq_shoelaceArea (pts : List V2) :
    polygonArea pts = shoelaceArea pts := by
  cases pts with
  | nil => rfl
  | cons a t =>
    rw [polygonArea, shoelaceArea]
    congr 1
    congr 1
    have hrot : ((a :: t).drop 1 ++ (a :: t).take 1).length = (a :: t).length := by
      simp
    apply List.ext_getElem
    · simp only [List.length_map, List.length_range, List.length_zip, hrot,
        Nat.min_self]
    · intro i h1 h2
      simp only [List.length_map, List.length_range] at h1
      simp only [List.getElem_map, List.getElem_range, List.getElem_zip]
      have hmod : (i + 1) % (a :: t).length < (a :: t).length :=
        Nat.mod_lt _ (by omega)
      have hri : i < ((a :: t).drop 1 ++ (a :: t).take 1).length := by omega
      have hrg := rot_getElem (a :: t) i h1
      rw [List.getElem?_eq_getElem hri, List.getElem?_eq_getElem hmod] at hrg
      have hb := Option.some_injective _ hrg
      rw [List.getD_eq_getElem _ _ h1, List.getD_eq_getElem _ _ hmod, hb]

lemma orientClockwise_eq_orientSpec (pts : List V2) :
    orientClockwise pts = orientSpec pts := by
  rw [orientClockwise, orientSpec, polygonArea_eq_shoelaceArea]

lemma zip_tail_pairs (pts : List V2) :
    pts.zip pts.tail = (List.range (pts.length - 1)).map
      (fun i => (pts.getD i default, pts.getD (i + 1) default)) := by
  have htl : pts.tail.length = pts.length - 1 := by simp
  apply List.ext_getElem
  · simp only [List.length_zip, htl, List.length_map, List.length_range,
      Nat.min_comm]
    omega
  · intro i h1 h2
    simp only [List.length_zip, htl] at h1
    have hi1 : i < pts.length := by omega
    have hi2 : i + 1 < pts.length := by omega
    simp only [List.getElem_zip, List.getElem_map, List.getElem_range]
    have hti : i < pts.tail.length := by omega
    have h0 : pts.tail[i]? = pts[i + 1]? := by
      rw [← List.drop_one, List.getElem?_drop, Nat.add_comm]
    rw [List.getElem?_eq_getElem hti, List.getElem?_eq_getElem hi2] at h0
    have htail := Option.some_injective _ h0
    rw [List.getD_eq_getElem _ _ hi1, List.getD_eq_getElem _ _ hi2, htail]

lemma mkPanel_eq_panelOfPairSpec (s e : V2) : mkPanel s e = panelOfPairSpec s e := by
  rw [mkPanel, panelOfPairSpec,
    show distV2 s e = hypot (e.x - s.x) (e.y - s.y) from rfl]
  split_ifs with h
  · rfl
  · rw [show ((s.x + e.x) * 0.5 : ℝ) = (s.x + e.x) / 2 from by ring,
      show ((s.y + e.y) * 0.5 : ℝ) = (s.y + e.y) / 2 from by ring]

/-- Claim C4, amended with the degenerate-input guard of the code (contours of
fewer than 3 points yield no panels): for every loop of at least 3 points,
buildPanels equals the spec-side process (close the loop when first and last
are at least 1e-6 apart, reverse exactly when the shoelace area of the closed
loop is positive, emit one panel per consecutive nonzero-length pair), and
every emitted panel has positive length equal to the segment length, unit
tangent from start to end, normal (tangent.y, -tangent.x), and midpoint
control point. -/
theorem buildPanels_refines_spec (loop : List V2) (h3 : 3 ≤ loop.length) :
    buildPanels loop = buildPanelsSpec loop ∧
    ∀ pl ∈ buildPanels loop,
      0 < pl.length ∧
      pl.length = distV2 pl.start pl.pend ∧
      pl.tangent = ⟨(pl.pend.x - pl.start.x) / pl.length,
        (pl.pend.y - pl.start.y) / pl.length⟩ ∧
      pl.normal = ⟨pl.tangent.y, -pl.tangent.x⟩ ∧
      pl.control = ⟨(pl.start.x + pl.pend.x) / 2, (pl.start.y + pl.pend.y) / 2⟩ := by
  constructor
  · rw [buildPanels, if_neg (by omega), buildPanelsSpec,
      ← autoClose_eq_closeLoopSpec loop (by intro hnil; rw [hnil] at h3; simp at h3),
      ← orientClockwise_eq_orientSpec, panelsFromPoints, zip_tail_pairs,
      List.filterMap_map]
    congr 1
    funext i
    exact mkPanel_eq_panelOfPairSpec _ _
  · intro pl hpl
    rw [buildPanels, if_neg (by omega), panelsFromPoints, List.mem_filterMap] at hpl
    obtain ⟨i, -, hmk⟩ := hpl
    rw [mkPanel] at hmk
    set pts := orientClockwise (autoClose loop)
    set s := pts.getD i default
    set e := pts.getD (i + 1) default
    by_cases hz : hypot (e.x - s.x) (e.y - s.y) = 0
    · rw [if_pos hz] at hmk
      exact absurd hmk (by simp)
    · rw [if_neg hz] at hmk
      obtain rfl := Option.some_injective _ hmk
      have hnn : 0 ≤ hypot (e.x - s.x) (e.y - s.y) := Real.sqrt_nonneg _
      refine ⟨lt_of_le_of_ne hnn (Ne.symm hz), rfl, rfl, rfl, ?_⟩
      simp only [V2.mk.injEq]
      constructor <;> ring

/-- Witness for C4 (amended): the unit square contour, which has 4 points. -/
theorem buildPanels_refines_spec_witness :
    buildPanels [⟨0, 0⟩, ⟨1, 0⟩, ⟨1, 1⟩, ⟨0, 1⟩] =
      buildPanelsSpec [⟨0, 0⟩, ⟨1, 0⟩, ⟨1, 1⟩, ⟨0, 1⟩] :=
  (buildPanels_refines_spec _ (by norm_num)).1

/-- Counterexample for C4 as stated: for the two-point loop [(0,0), (1,0)] the
code emits no panel at all (the degenerate-contour guard), while the process
described by the claim emits two panels of length 1. -/
theorem buildPanels_two_point_counterexample :
    buildPanels [⟨0, 0⟩, ⟨1, 0⟩] = [] ∧
    (buildPanelsSpec [⟨0, 0⟩, ⟨1, 0⟩]).length = 2 := by
  constructor
  · rw [buildPanels, if_pos (by norm_num)]
  · have hd : distV2 (⟨0, 0⟩ : V2) ⟨1, 0⟩ = 1 := by
      rw [distV2, hypot]
      norm_num
    have hd2 : distV2 (⟨1, 0⟩ : V2) ⟨0, 0⟩ = 1 := by
      rw [distV2, hypot]
      norm_num
    have hclose : closeLoopSpec [⟨0, 0⟩, ⟨1, 0⟩] = [⟨0, 0⟩, ⟨1, 0⟩, ⟨0, 0⟩] := by
      rw [show closeLoopSpec [⟨0, 0⟩, ⟨1, 0⟩] =
        if 1e-6 ≤ distV2 ⟨0, 0⟩ ⟨1, 0⟩ then ([⟨0, 0⟩, ⟨1, 0⟩] : List V2) ++ [⟨0, 0⟩]
        else [⟨0, 0⟩, ⟨1, 0⟩] from rfl]
      rw [if_pos (by rw [hd]; norm_num)]
      rfl
    rw [buildPanelsSpec, hclose]
    have harea : shoelaceArea [⟨0, 0⟩, ⟨1, 0⟩, ⟨0, 0⟩] = 0 := by
      rw [shoelaceArea]
      norm_num
    rw [orientSpec, if_neg (by rw [harea]; norm_num)]
    have hzip : (([⟨0, 0⟩, ⟨1, 0⟩, ⟨0, 0⟩] : List V2).zip
        ([⟨0, 0⟩, ⟨1, 0⟩, ⟨0, 0⟩] : List V2).tail) =
        [((⟨0, 0⟩ : V2), (⟨1, 0⟩ : V2)), ((⟨1, 0⟩ : V2), (⟨0, 0⟩ : V2))] := rfl
    rw [hzip]
    have h1 : panelOfPairSpec (⟨0, 0⟩ : V2) ⟨1, 0⟩ =
        some ⟨⟨0, 0⟩, ⟨1, 0⟩, ⟨(0 + 1) / 2, (0 + 0) / 2⟩,
          ⟨(1 - 0) / distV2 ⟨0, 0⟩ ⟨1, 0⟩, (0 - 0) / distV2 ⟨0, 0⟩ ⟨1, 0⟩⟩,
          ⟨(0 - 0) / distV2 ⟨0, 0⟩ ⟨1, 0⟩, -((1 - 0) / distV2 ⟨0, 0⟩ ⟨1, 0⟩)⟩,
          distV2 ⟨0, 0⟩ ⟨1, 0⟩⟩ := by
      rw [panelOfPairSpec, if_neg (by rw [hd]; norm_num)]
    have h2 : panelOfPairSpec (⟨1, 0⟩ : V2) ⟨0, 0⟩ =
        some ⟨⟨1, 0⟩, ⟨0, 0⟩, ⟨(1 + 0) / 2, (0 + 0) / 2⟩,
          ⟨(0 - 1) / distV2 ⟨1, 0⟩ ⟨0, 0⟩, (0 - 0) / distV2 ⟨1, 0⟩ ⟨0, 0⟩⟩,
          ⟨(0 - 0) / distV2 ⟨1, 0⟩ ⟨0, 0⟩, -((0 - 1) / distV2 ⟨1, 0⟩ ⟨0, 0⟩)⟩,
          distV2 ⟨1, 0⟩ ⟨0, 0⟩⟩ := by
      rw [panelOfPairSpec, if_neg (by rw [hd2]; norm_num)]
    simp only [List.filterMap_cons, List.filterMap_nil, h1, h2]
    rfl

lemma foldl_inv {α β : Type} (P : α → Prop) (step : α → β → α) (l : List β) (s : α)
    (h : P s) (hstep : ∀ a b, b ∈ l → P a → P (step a b)) : P (l.foldl step s) := by
  induction l generalizing s with
  | nil => exact h
  | cons b t ih =>
    exact ih (step s b) (hstep s b (by simp) h)
      (fun a c hc ha => hstep a c (List.mem_cons_of_mem b hc) ha)

lemma set_replicate_self {α : Type} (n i : ℕ) (a : α) :
    (List.replicate n a).set i a = List.replicate n a := by
  induction n generalizing i with
  | zero => simp
  | succ m ih => cases i <;> simp [List.replicate_succ, List.set, ih]

lemma replicate_getD_zero (n i : ℕ) : (List.replicate n (0 : ℝ)).getD i 0 = 0 := by
  rcases Nat.lt_or_ge i n with h | h
  · rw [List.getD_eq_getElem _ _ (by simpa using h), List.getElem_replicate]
  · rw [List.getD_eq_default _ _ (by simpa using h)]

lemma swapIdx_replicate_zero (n i j : ℕ) :
    swapIdx (List.replicate n (0 : ℝ)) i j = List.replicate n 0 := by
  rw [swapIdx]
  have hd : ∀ k : ℕ, (List.replicate n (0 : ℝ)).getD k default = 0 :=
    fun k => replicate_getD_zero n k
  rw [hd, hd, set_replicate_self, set_replicate_self]

lemma elimStep_zero (n : ℕ) (st : List (List ℝ) × List ℝ) (k : ℕ)
    (h : st.2 = List.replicate n 0) : (elimStep st k).2 = List.replicate n 0 := by
  rw [elimStep]
  apply foldl_inv (fun s : List (List ℝ) × List ℝ => s.2 = List.replicate n 0)
  · dsimp only
    split_ifs
    · rw [h, swapIdx_replicate_zero]
    · exact h
  · intro a b _ ha
    dsimp only
    rw [ha, replicate_getD_zero, replicate_getD_zero]
    rw [show (0 : ℝ) - _ / _ * 0 = 0 from by ring, set_replicate_self]

lemma backSub_zero (M : List (List ℝ)) (n : ℕ) :
    backSub M (List.replicate n 0) = List.replicate n 0 := by
  rw [backSub]
  simp only [List.length_replicate]
  apply foldl_inv (fun sol : List ℝ => sol = List.replicate n 0)
  · rfl
  · intro a i _ ha
    dsimp only
    rw [ha, replicate_getD_zero]
    have hsum : ((((List.range n).drop (i + 1)).map
        (fun j => entryM M i j * (List.replicate n (0 : ℝ)).getD j 0)).sum : ℝ) = 0 := by
      apply List.sum_eq_zero
      intro x hx
      rw [List.mem_map] at hx
      obtain ⟨j, -, rfl⟩ := hx
      rw [replicate_getD_zero, mul_zero]
    rw [hsum, sub_zero, zero_div, set_replicate_self]

lemma solveLinearSystem_zero (A : List (List ℝ)) (n : ℕ) :
    solveLinearSystem A (List.replicate n 0) = List.replicate n 0 := by
  rw [solveLinearSystem]
  have hf : ((List.range (List.replicate n (0 : ℝ)).length).foldl elimStep
      (A, List.replicate n 0)).2 = List.replicate n 0 := by
    apply foldl_inv (fun st : List (List ℝ) × List ℝ => st.2 = List.replicate n 0)
    · rfl
    · intro a k _ ha
      exact elimStep_zero n a k ha
  rw [hf, backSub_zero]

lemma dot_vInfVec_zero (alpha : ℝ) (v : V2) : dot (vInfVec 0 alpha) v = 0 := by
  rw [dot, vInfVec]
  ring

lemma systemRhs_zero (panels : List Panel) (alpha : ℝ) :
    systemRhs panels (vInfVec 0 alpha) = List.replicate (panels.length + 1) 0 := by
  rw [systemRhs]
  refine List.eq_replicate_iff.mpr ⟨by simp, ?_⟩
  intro b hb
  rw [List.mem_map] at hb
  obtain ⟨i, -, rfl⟩ := hb
  rw [bEntry]
  split_ifs <;> simp [dot_vInfVec_zero]

lemma findTrailingEdgePanels_lt (panels : List Panel) (h : panels ≠ []) :
    (findTrailingEdgePanels panels).1 < panels.length ∧
    (findTrailingEdgePanels panels).2 < panels.length := by
  rw [findTrailingEdgePanels]
  have hmem : ∀ ip ∈ panels.enum, ip.1 < panels.length := by
    intro ip hip
    rw [List.enum_eq_zip_range] at hip
    have := (List.of_mem_zip hip).1
    exact List.mem_range.mp this
  have hpos : 0 < panels.length := List.length_pos.mpr h
  apply foldl_inv
    (fun st : (ℕ × ℕ) × Option ℝ × Option ℝ =>
      st.1.1 < panels.length ∧ st.1.2 < panels.length)
  · exact ⟨hpos, Nat.sub_lt hpos Nat.one_pos⟩
  · intro a b hb ha
    rw [teStep]
    refine ⟨?_, ?_⟩ <;> dsimp only <;> split_ifs
    · exact hmem b hb
    · exact ha.1
    · exact hmem b hb
    · exact ha.2

set_option maxHeartbeats 1000000 in
lemma solvePanelMethod_components (contour : List V2) (Vinf alpha : ℝ)
    (h : buildPanels contour ≠ []) :
    (solvePanelMethod contour Vinf alpha).sigma =
      (solveLinearSystem (systemMatrix (buildPanels contour))
        (systemRhs (buildPanels contour) (vInfVec Vinf alpha))).take
          (buildPanels contour).length ∧
    (solvePanelMethod contour Vinf alpha).gamma =
      (solveLinearSystem (systemMatrix (buildPanels contour))
        (systemRhs (buildPanels contour) (vInfVec Vinf alpha))).getD
          (buildPanels contour).length 0 ∧
    (solvePanelMethod contour Vinf alpha).vt =
      (List.range (buildPanels contour).length).map
        (fun i => tangentialVelocityAt (buildPanels contour) (vInfVec Vinf alpha)
          (solvePanelMethod contour Vinf alpha).sigma
          (solvePanelMethod contour Vinf alpha).gamma i) := by
  rw [solvePanelMethod, if_neg (by simpa using h)]
  exact ⟨rfl, rfl, rfl⟩

/-- Claim C1: whenever the returned source strengths and circulation satisfy
the assembled (n+1)x(n+1) linear system exactly (the hypothesis standing for an
exact Gaussian-elimination solve), the total normal velocity at every panel
control point vanishes and the recovered tangential velocity magnitudes at the
two trailing-edge panels (maximum control-point x with y ≥ 0 resp. y ≤ 0) are
equal. -/
theorem solvePanelMethod_residuals (contour : List V2) (Vinf alpha : ℝ)
    (hn : 1 ≤ (buildPanels contour).length)
    (hsolve : ∀ i ≤ (buildPanels contour).length,
      (∑ j ∈ Finset.range (buildPanels contour).length,
        aEntry (buildPanels contour) i j *
          (solvePanelMethod contour Vinf alpha).sigma.getD j 0) +
        aEntry (buildPanels contour) i (buildPanels contour).length *
          (solvePanelMethod contour Vinf alpha).gamma =
        bEntry (buildPanels contour) (vInfVec Vinf alpha) i) :
    (∀ i < (buildPanels contour).length,
      normalVelocityAt (buildPanels contour) (vInfVec Vinf alpha)
        (solvePanelMethod contour Vinf alpha).sigma
        (solvePanelMethod contour Vinf alpha).gamma i = 0) ∧
    |(solvePanelMethod contour Vinf alpha).vt.getD
        (findTrailingEdgePanels (buildPanels contour)).1 0| =
      |(solvePanelMethod contour Vinf alpha).vt.getD
        (findTrailingEdgePanels (buildPanels contour)).2 0| := by
  have hne : buildPanels contour ≠ [] := by
    intro hnil
    rw [hnil] at hn
    simp at hn
  constructor
  · intro i hi
    have h := hsolve i (le_of_lt hi)
    have hsum : ∑ j ∈ Finset.range (buildPanels contour).length,
        aEntry (buildPanels contour) i j *
          (solvePanelMethod contour Vinf alpha).sigma.getD j 0 =
        ∑ j ∈ Finset.range (buildPanels contour).length,
          (solvePanelMethod contour Vinf alpha).sigma.getD j 0 *
            srcN (buildPanels contour) j i := by
      refine Finset.sum_congr rfl fun j hj => ?_
      rw [aEntry, if_pos hi, if_pos (Finset.mem_range.mp hj), mul_comm]
    rw [hsum, show aEntry (buildPanels contour) i (buildPanels contour).length =
        vortNSum (buildPanels contour) i from by
        rw [aEntry, if_pos hi, if_neg (lt_irrefl _)],
      show bEntry (buildPanels contour) (vInfVec Vinf alpha) i =
        -dot (vInfVec Vinf alpha)
          ((buildPanels contour).getD i default).normal from by
        rw [bEntry, if_pos hi]] at h
    rw [normalVelocityAt]
    linarith [h]
  · have h := hsolve (buildPanels contour).length (le_refl _)
    have hte := findTrailingEdgePanels_lt (buildPanels contour) hne
    have hsum : ∑ j ∈ Finset.range (buildPanels contour).length,
        aEntry (buildPanels contour) (buildPanels contour).length j *
          (solvePanelMethod contour Vinf alpha).sigma.getD j 0 =
        (∑ j ∈ Finset.range (buildPanels contour).length,
          (solvePanelMethod contour Vinf alpha).sigma.getD j 0 *
            srcT (buildPanels contour) j
              (findTrailingEdgePanels (buildPanels contour)).1) -
        (∑ j ∈ Finset.range (buildPanels contour).length,
          (solvePanelMethod contour Vinf alpha).sigma.getD j 0 *
            srcT (buildPanels contour) j
              (findTrailingEdgePanels (buildPanels contour)).2) := by
      rw [← Finset.sum_sub_distrib]
      refine Finset.sum_congr rfl fun j hj => ?_
      rw [aEntry, if_neg (lt_irrefl _), if_pos (Finset.mem_range.mp hj)]
      ring
    rw [hsum, show aEntry (buildPanels contour) (buildPanels contour).length
        (buildPanels contour).length =
        vortTSum (buildPanels contour) (findTrailingEdgePanels (buildPanels contour)).1 -
          vortTSum (buildPanels contour)
            (findTrailingEdgePanels (buildPanels contour)).2 from by
        rw [aEntry, if_neg (lt_irrefl _), if_neg (lt_irrefl _)],
      show bEntry (buildPanels contour) (vInfVec Vinf alpha)
          (buildPanels contour).length =
        -(dot (vInfVec Vinf alpha)
            ((buildPanels contour).getD
              (findTrailingEdgePanels (buildPanels contour)).1 default).tangent -
          dot (vInfVec Vinf alpha)
            ((buildPanels contour).getD
              (findTrailingEdgePanels (buildPanels contour)).2 default).tangent) from by
        rw [bEntry, if_neg (lt_irrefl _)]] at h
    have hvt : ∀ k : ℕ, k < (buildPanels contour).length →
        (solvePanelMethod contour Vinf alpha).vt.getD k 0 =
          tangentialVelocityAt (buildPanels contour) (vInfVec Vinf alpha)
            (solvePanelMethod contour Vinf alpha).sigma
            (solvePanelMethod contour Vinf alpha).gamma k := by
      intro k hk
      rw [(solvePanelMethod_components contour Vinf alpha hne).2.2,
        List.getD_eq_getElem _ _ (by simpa using hk), List.getElem_map,
        List.getElem_range]
    rw [hvt _ hte.1, hvt _ hte.2]
    have heq : tangentialVelocityAt (buildPanels contour) (vInfVec Vinf alpha)
        (solvePanelMethod contour Vinf alpha).sigma
        (solvePanelMethod contour Vinf alpha).gamma
        (findTrailingEdgePanels (buildPanels contour)).1 =
      tangentialVelocityAt (buildPanels contour) (vInfVec Vinf alpha)
        (solvePanelMethod contour Vinf alpha).sigma
        (solvePanelMethod contour Vinf alpha).gamma
        (findTrailingEdgePanels (buildPanels contour)).2 := by
      rw [tangentialVelocityAt, tangentialVelocityAt]
      linear_combination h
    rw [heq]

lemma filterMap_length_of_all_some {α β : Type} (f : α → Option β) (l : List α)
    (h : ∀ a ∈ l, ∃ b, f a = some b) : (l.filterMap f).length = l.length := by
  induction l with
  | nil => rfl
  | cons a t ih =>
    obtain ⟨b, hb⟩ := h a (by simp)
    simp only [List.filterMap_cons, hb, List.length_cons]
    rw [ih (fun c hc => h c (List.mem_cons_of_mem a hc))]

lemma buildPanels_square :
    (buildPanels [⟨0, 0⟩, ⟨1, 0⟩, ⟨1, 1⟩, ⟨0, 1⟩]).length = 4 := by
  rw [buildPanels, if_neg (by norm_num)]
  have hclose : autoClose [⟨0, 0⟩, ⟨1, 0⟩, ⟨1, 1⟩, ⟨0, 1⟩] =
      [⟨0, 0⟩, ⟨1, 0⟩, ⟨1, 1⟩, ⟨0, 1⟩, ⟨0, 0⟩] := by
    rw [autoClose, if_neg]
    · rfl
    · show ¬distV2 ⟨0, 0⟩ ⟨0, 1⟩ < 1e-6
      rw [distV2, hypot]
      norm_num
  have harea : polygonArea [⟨0, 0⟩, ⟨1, 0⟩, ⟨1, 1⟩, ⟨0, 1⟩, ⟨0, 0⟩] = 1 := by
    rw [polygonArea, show ([⟨0, 0⟩, ⟨1, 0⟩, ⟨1, 1⟩, ⟨0, 1⟩, ⟨0, 0⟩] : List V2).length = 5
      from rfl, show List.range 5 = [0, 1, 2, 3, 4] from rfl]
    norm_num [List.getD_cons_zero, List.getD_cons_succ]
  have horient : orientClockwise [⟨0, 0⟩, ⟨1, 0⟩, ⟨1, 1⟩, ⟨0, 1⟩, ⟨0, 0⟩] =
      [⟨0, 0⟩, ⟨0, 1⟩, ⟨1, 1⟩, ⟨1, 0⟩, ⟨0, 0⟩] := by
    rw [orientClockwise, if_pos (by rw [harea]; norm_num)]
    rfl
  rw [hclose, horient, panelsFromPoints]
  rw [show (([⟨0, 0⟩, ⟨0, 1⟩, ⟨1, 1⟩, ⟨1, 0⟩, ⟨0, 0⟩] : List V2).length - 1) = 4 from rfl,
    show List.range 4 = [0, 1, 2, 3] from rfl]
  rw [filterMap_length_of_all_some]
  · rfl
  · intro i hi
    fin_cases hi <;>
      simp only [List.getD_cons_zero, List.getD_cons_succ] <;>
      exact ⟨_, by rw [mkPanel, if_neg (by rw [hypot]; norm_num)]⟩

/-- Witness for C1: the unit-square contour at zero freestream speed, where the
solver provably returns all-zero strengths that satisfy the all-zero system
exactly. -/
theorem solvePanelMethod_residuals_witness :
    (∀ i < (buildPanels [⟨0, 0⟩, ⟨1, 0⟩, ⟨1, 1⟩, ⟨0, 1⟩]).length,
      normalVelocityAt (buildPanels [⟨0, 0⟩, ⟨1, 0⟩, ⟨1, 1⟩, ⟨0, 1⟩]) (vInfVec 0 0)
        (solvePanelMethod [⟨0, 0⟩, ⟨1, 0⟩, ⟨1, 1⟩, ⟨0, 1⟩] 0 0).sigma
        (solvePanelMethod [⟨0, 0⟩, ⟨1, 0⟩, ⟨1, 1⟩, ⟨0, 1⟩] 0 0).gamma i = 0) ∧
    |(solvePanelMethod [⟨0, 0⟩, ⟨1, 0⟩, ⟨1, 1⟩, ⟨0, 1⟩] 0 0).vt.getD
        (findTrailingEdgePanels (buildPanels [⟨0, 0⟩, ⟨1, 0⟩, ⟨1, 1⟩, ⟨0, 1⟩])).1 0| =
      |(solvePanelMethod [⟨0, 0⟩, ⟨1, 0⟩, ⟨1, 1⟩, ⟨0, 1⟩] 0 0).vt.getD
        (findTrailingEdgePanels (buildPanels [⟨0, 0⟩, ⟨1, 0⟩, ⟨1, 1⟩, ⟨0, 1⟩])).2 0| := by
  have hne : buildPanels [⟨0, 0⟩, ⟨1, 0⟩, ⟨1, 1⟩, ⟨0, 1⟩] ≠ [] := by
    intro hnil
    have := buildPanels_square
    rw [hnil] at this
    simp at this
  have hsol : solveLinearSystem
      (systemMatrix (buildPanels [⟨0, 0⟩, ⟨1, 0⟩, ⟨1, 1⟩, ⟨0, 1⟩]))
      (systemRhs (buildPanels [⟨0, 0⟩, ⟨1, 0⟩, ⟨1, 1⟩, ⟨0, 1⟩]) (vInfVec 0 0)) =
      List.replicate ((buildPanels [⟨0, 0⟩, ⟨1, 0⟩, ⟨1, 1⟩, ⟨0, 1⟩]).length + 1) 0 := by
    rw [systemRhs_zero, solveLinearSystem_zero]
  have hsig : ∀ j : ℕ,
      (solvePanelMethod [⟨0, 0⟩, ⟨1, 0⟩, ⟨1, 1⟩, ⟨0, 1⟩] 0 0).sigma.getD j 0 = 0 := by
    intro j
    rw [(solvePanelMethod_components _ 0 0 hne).1, hsol, List.take_replicate]
    exact replicate_getD_zero _ j
  have hgam : (solvePanelMethod [⟨0, 0⟩, ⟨1, 0⟩, ⟨1, 1⟩, ⟨0, 1⟩] 0 0).gamma = 0 := by
    rw [(solvePanelMethod_components _ 0 0 hne).2.1, hsol]
    exact replicate_getD_zero _ _
  apply solvePanelMethod_residuals
  · rw [buildPanels_square]
    norm_num
  · intro i hi
    have hbz : bEntry (buildPanels [⟨0, 0⟩, ⟨1, 0⟩, ⟨1, 1⟩, ⟨0, 1⟩]) (vInfVec 0 0) i = 0 := by
      rw [bEntry]
      split_ifs <;> simp [dot_vInfVec_zero]
    rw [hbz, hgam, mul_zero, add_zero]
    apply Finset.sum_eq_zero
    intro j _
    rw [hsig j, mul_zero]

end
